import Mathlib

/-!
Verification of the Deployment Chunking & Timezone-Offset Correction Engine
of the sapflux repository, together with the repository's analysis scripts.

Conventions used throughout this development:

* Naive local datetimes are represented as `Int` minutes since the civil
  epoch 1970-01-01 00:00 (computed by `dtMin` below from a Gregorian
  calendar date).  Durations in hours are represented as `Rat` where the
  scripts use floating-point hour counts (`total_seconds() / 3600`); every
  value that actually occurs is an exact multiple of one minute, so the
  rational embedding is exact.
* UTC offsets are signed hour counts (`-5` for EST, `-4` for EDT), exactly
  as stored by the engine.
* The engine proper (Chunk Detector, Offset Resolver, UTC Projector) ships
  outside the analysed script tree; those components are modelled from the
  specification, and each such definition is marked `Modelled from the
  spec:` in its doc comment.  The analysis scripts
  (`scripts/quality.py`, `scripts/record_number_evaluator.py`,
  `claude_attempt/scripts/dst_bulletproof_validation.py`,
  `oldstuff/claude_attempt/scripts/test_dst_algorithm.py`) are embedded
  directly from their Python sources.
-/

set_option autoImplicit false

/-! ### Definitions -/

/-- Number of days between a Gregorian civil date and 1970-01-01
(Howard Hinnant's `days_from_civil` algorithm).  All uses in this file have
year at least 2021, so every division acts on nonnegative operands. -/
def daysFromCivil (y m d : Int) : Int :=
  let y' := if m ≤ 2 then y - 1 else y
  let era := (if 0 ≤ y' then y' else y' - 399) / 400
  let yoe := y' - era * 400
  let mp := (m + 9) % 12
  let doy := (153 * mp + 2) / 5 + d - 1
  let doe := yoe * 365 + yoe / 4 - yoe / 100 + doy
  era * 146097 + doe - 719468

/-- A naive local datetime, encoded as minutes since 1970-01-01 00:00. -/
def dtMin (y m d hh mi : Int) : Int :=
  1440 * daysFromCivil y m d + 60 * hh + mi

/-- Modelled from the spec: direction of a civil DST transition
(`SpringForward | FallBack`), section 3 of the specification. -/
inductive Direction where
  | springForward : Direction
  | fallBack : Direction
deriving DecidableEq, Repr

/-- Modelled from the spec: a `TransitionEvent` of the static Transition
Table: a naive local instant at which a civil DST change takes effect,
plus its direction.  The table is an ascending list of these events. -/
structure TransitionEvent where
  effective_local_instant : Int
  direction : Direction
deriving DecidableEq, Repr

/-- Modelled from the spec: the offset in force immediately after a
transition fires: a spring-forward puts the region on daylight time
(EDT, `-4`), a fall-back returns it to standard time (EST, `-5`). -/
def offsetAfter : Direction → Int
  | .springForward => -4
  | .fallBack => -5

/-- Modelled from the spec: the Offset Resolver's table scan (spec 4.2).
Linear scan through the ascending Transition Table; the latest event whose
`effective_local_instant` is less than or equal to the queried timestamp
determines the offset, and the baseline offset applies when no event
precedes the timestamp.  The comparison is half-open exactly as spec 4.2
requires: an event's instant is the first local instant at which the new
offset applies, so a timestamp strictly before it resolves under the prior
offset. -/
def offsetAt (baseline : Int) (table : List TransitionEvent) (t : Int) : Int :=
  table.foldl
    (fun acc ev => if ev.effective_local_instant ≤ t then offsetAfter ev.direction else acc)
    baseline

/-- Modelled from the spec: a `RawRecord` (spec section 3): a naive local
timestamp, a provenance set of source-file identifiers, and an opaque
sensor payload (a type parameter here). -/
structure RawRecord (π : Type) where
  local_timestamp : Int
  provenance : Finset String
  payload : π
deriving DecidableEq

/-- Modelled from the spec: a `Chunk` (spec section 3): its identity is the
provenance signature itself, and it owns its records ordered by local
timestamp. -/
structure Chunk (π : Type) where
  chunk_id : Finset String
  records : List (RawRecord π)
deriving DecidableEq

/-- Modelled from the spec: a `CorrectedRecord` (spec section 3): the raw
record's fields plus the projected UTC timestamp, the frozen chunk offset
and the owning chunk id. -/
structure CorrectedRecord (π : Type) where
  local_timestamp : Int
  provenance : Finset String
  payload : π
  utc_timestamp : Int
  utc_offset_hours : Int
  chunk_id : Finset String
deriving DecidableEq

/-- Modelled from the spec: a chunk's minimum local timestamp, the single
input of the Offset Resolver (spec 4.2). -/
def chunkStartLocal {π : Type} (c : Chunk π) : Int :=
  ((c.records.map (fun r => r.local_timestamp)).min?).getD 0

/-- Modelled from the spec: the UTC Projector (spec 4.3).  The offset is
resolved exactly once, from the chunk's minimum local timestamp, and that
one frozen offset is applied to every record:
`utc_timestamp = local_timestamp - utc_offset_hours` (here in minutes, so
the subtracted quantity is `60 * utc_offset_hours`). -/
def projectChunk {π : Type} (baseline : Int) (table : List TransitionEvent)
    (c : Chunk π) : List (CorrectedRecord π) :=
  let off := offsetAt baseline table (chunkStartLocal c)
  c.records.map (fun r =>
    { local_timestamp := r.local_timestamp
      provenance := r.provenance
      payload := r.payload
      utc_timestamp := r.local_timestamp - 60 * off
      utc_offset_hours := off
      chunk_id := c.chunk_id })

/-- Modelled from the spec: duplicate-provenance collapse (spec 4.1 step 1).
A record merges into the first already-collected record carrying the same
`(local_timestamp, payload)` pair whose provenance set is related to it by
set inclusion; the survivor keeps the union of the two provenance sets.
Otherwise the record is appended unchanged. -/
def collapseInto {π : Type} [DecidableEq π] :
    List (RawRecord π) → RawRecord π → List (RawRecord π)
  | [], r => [r]
  | s :: rest, r =>
    if s.local_timestamp = r.local_timestamp ∧ s.payload = r.payload ∧
        (s.provenance ⊆ r.provenance ∨ r.provenance ⊆ s.provenance) then
      { s with provenance := s.provenance ∪ r.provenance } :: rest
    else
      s :: collapseInto rest r

/-- Modelled from the spec: deduplication of the raw input stream before
chunking (spec 4.1 step 1), folding every record into the collapsed list. -/
def dedupRecords {π : Type} [DecidableEq π] (input : List (RawRecord π)) :
    List (RawRecord π) :=
  input.foldl collapseInto []

/-- Insertion of one element into a list sorted ascending by an integer key. -/
def insertByKey {α : Type} (key : α → Int) (x : α) : List α → List α
  | [] => [x]
  | y :: ys => if key x ≤ key y then x :: y :: ys else y :: insertByKey key x ys

/-- Insertion sort by an integer key (ascending, stable for equal keys in
the reversed fold order; determinism is all the pipeline claims need). -/
def sortByKey {α : Type} (key : α → Int) (l : List α) : List α :=
  l.foldr (insertByKey key) []

/-- Modelled from the spec: first-seen order of the distinct provenance
signatures of the deduplicated records (spec 4.1 steps 2 and 3). -/
def signaturesOf {π : Type} (l : List (RawRecord π)) : List (Finset String) :=
  l.foldl (fun acc r => if r.provenance ∈ acc then acc else acc ++ [r.provenance]) []

/-- Modelled from the spec: the Chunk Detector (spec 4.1).  Deduplicate,
group by provenance signature, sort each group by local timestamp, and
order the chunks by their minimum local timestamp. -/
def detectChunks {π : Type} [DecidableEq π] (input : List (RawRecord π)) :
    List (Chunk π) :=
  let dd := dedupRecords input
  let cs := (signaturesOf dd).map (fun s =>
    Chunk.mk s (sortByKey (fun r => r.local_timestamp)
      (dd.filter (fun r => r.provenance = s))))
  sortByKey chunkStartLocal cs

/-- Modelled from the spec: the anomaly kinds of the Continuity Validator
(spec section 3). -/
inductive AnomalyKind where
  | missingHours : AnomalyKind
  | duplicateHours : AnomalyKind
  | boundaryMismatch : AnomalyKind
  | continuityGap : AnomalyKind
deriving DecidableEq, Repr

/-- Modelled from the spec: an `Anomaly` record (spec section 3): kind,
owning chunk id, local range and magnitude in hours. -/
structure EngineAnomaly where
  kind : AnomalyKind
  chunk_id : Finset String
  range_start : Int
  range_end : Int
  magnitude : Rat
deriving DecidableEq

/-- Modelled from the spec: the last local timestamp of a chunk, used by
the boundary-transition cross-check. -/
def chunkEndLocal {π : Type} (c : Chunk π) : Int :=
  ((c.records.map (fun r => r.local_timestamp)).max?).getD 0

/-- Modelled from the spec: chunk-internal continuity check (spec 4.4):
inter-record gaps above the 2-hour large-gap threshold become
`continuityGap` anomalies. -/
def chunkGapAnomalies {π : Type} (c : Chunk π) : List EngineAnomaly :=
  let ts := c.records.map (fun r => r.local_timestamp)
  (ts.zip ts.tail).filterMap (fun p =>
    if 120 < p.2 - p.1 then
      some ⟨AnomalyKind.continuityGap, c.chunk_id, p.1, p.2, ((p.2 - p.1 : Int) : Rat) / 60⟩
    else none)

/-- Modelled from the spec: boundary-transition cross-check (spec 4.4):
each consecutive pair of chunks whose boundary has no transition event
within one hour contributes a non-fatal `boundaryMismatch` anomaly. -/
def boundaryAnomalies {π : Type} (table : List TransitionEvent)
    (chunks : List (Chunk π)) : List EngineAnomaly :=
  (chunks.zip chunks.tail).filterMap (fun p =>
    if (table.find? (fun ev =>
        (chunkEndLocal p.1 - ev.effective_local_instant).natAbs < 60)).isNone then
      some ⟨AnomalyKind.boundaryMismatch, p.1.chunk_id, chunkEndLocal p.1,
        chunkStartLocal p.2, ((chunkStartLocal p.2 - chunkEndLocal p.1 : Int) : Rat) / 60⟩
    else none)

/-- Modelled from the spec: the Continuity Validator output over all
chunks (spec 4.4): per-chunk gap anomalies followed by the cross-chunk
boundary mismatches. -/
def validateChunks {π : Type} (table : List TransitionEvent)
    (chunks : List (Chunk π)) : List EngineAnomaly :=
  chunks.flatMap chunkGapAnomalies ++ boundaryAnomalies table chunks

/-- Modelled from the spec: the full engine pipeline (spec section 2, data
flow 1-2-3-4-5): chunk detection, per-chunk offset resolution and UTC
projection, then validation.  The function takes no clock input: its
output is fully determined by the raw record stream and the static
configuration. -/
def runPipeline {π : Type} [DecidableEq π] (baseline : Int)
    (table : List TransitionEvent) (input : List (RawRecord π)) :
    List (CorrectedRecord π) × List EngineAnomaly :=
  let chunks := detectChunks input
  (chunks.flatMap (projectChunk baseline table), validateChunks table chunks)

/-- The US Eastern transition table used by the repository's scripts
(2021 through 2025, transitions at 02:00 local wall-clock time). -/
def easternTable : List TransitionEvent :=
  [⟨dtMin 2021 3 14 2 0, .springForward⟩,
   ⟨dtMin 2021 11 7 2 0, .fallBack⟩,
   ⟨dtMin 2022 3 13 2 0, .springForward⟩,
   ⟨dtMin 2022 11 6 2 0, .fallBack⟩,
   ⟨dtMin 2023 3 12 2 0, .springForward⟩,
   ⟨dtMin 2023 11 5 2 0, .fallBack⟩,
   ⟨dtMin 2024 3 10 2 0, .springForward⟩,
   ⟨dtMin 2024 11 3 2 0, .fallBack⟩,
   ⟨dtMin 2025 3 9 2 0, .springForward⟩,
   ⟨dtMin 2025 11 2 2 0, .fallBack⟩]

/-- A two-record demonstration chunk whose local span crosses the 2022
spring-forward transition: one record on 2022-02-01 (EST civil time) and
one on 2022-07-01 (EDT civil time). -/
def demoChunk : Chunk Unit :=
  ⟨{"fileA"},
   [⟨dtMin 2022 2 1 0 0, {"fileA"}, ()⟩,
    ⟨dtMin 2022 7 1 12 0, {"fileA"}, ()⟩]⟩

/-- The projected record of `demoChunk` carrying the July timestamp. -/
def demoRecJuly : CorrectedRecord Unit :=
  (projectChunk (-5) easternTable demoChunk).getD 1
    ⟨0, ∅, (), 0, 0, ∅⟩

/-- The DST transition table of
`oldstuff/claude_attempt/scripts/test_dst_algorithm.py`, kept at the
calendar-date granularity the script uses: each entry is the transition
date's day number paired with `true` for action `"start"` (spring forward)
and `false` for `"end"` (fall back). -/
def dstTransitionsByDate : List (Int × Bool) :=
  [(daysFromCivil 2021 3 14, true), (daysFromCivil 2021 11 7, false),
   (daysFromCivil 2022 3 13, true), (daysFromCivil 2022 11 6, false),
   (daysFromCivil 2023 3 12, true), (daysFromCivil 2023 11 5, false),
   (daysFromCivil 2024 3 10, true), (daysFromCivil 2024 11 3, false),
   (daysFromCivil 2025 3 9, true), (daysFromCivil 2025 11 2, false)]

/-- The timezone-determination loop of `test_dst_algorithm.py` (lines
60 to 81): starting from `is_dst = False`, every transition entry whose
date is less than or equal to the record's calendar date overwrites the
flag with its action; the last applicable entry wins. -/
def simulatedIsDst (table : List (Int × Bool)) (day : Int) : Bool :=
  table.foldl (fun acc tr => if tr.1 ≤ day then tr.2 else acc) false

/-- The offset that the script derives from the flag: EDT (`-4`) when
daylight saving is deemed active, EST (`-5`) otherwise. -/
def simulatedOffset (table : List (Int × Bool)) (day : Int) : Int :=
  if simulatedIsDst table day then -4 else -5

/-- One entry of the `missing_hours` list built by
`claude_attempt/scripts/dst_bulletproof_validation.py` (lines 98 to 128):
start and end of the gap, its length in hours, and the chunk ids of the
two records flanking it. -/
structure GapRecord where
  gap_start : Int
  gap_end : Int
  gap_hours : Rat
  start_chunk : String
  end_chunk : String
deriving DecidableEq, Repr

/-- Default row used for the positional accesses of the scan. -/
def defaultRow : Int × String := (0, "")

/-- The missing-hours scan of `dst_bulletproof_validation.py` (lines 98 to
128): over the globally sorted rows, each consecutive pair at positions
`i` and `i + 1` whose local-time difference in hours strictly exceeds the
fixed tolerance `1.5` contributes one gap entry recording start, end,
magnitude in hours, and the flanking chunk ids.  Timestamps are minutes,
so `total_seconds() / 3600` becomes division by `60`. -/
def missingHoursScan (rows : List (Int × String)) : List GapRecord :=
  (List.range (rows.length - 1)).filterMap (fun i =>
    let cur := rows.getD i defaultRow
    let nxt := rows.getD (i + 1) defaultRow
    let timeDiff : Rat := ((nxt.1 - cur.1 : Int) : Rat) / 60
    if 3 / 2 < timeDiff then
      some ⟨cur.1, nxt.1, timeDiff, cur.2, nxt.2⟩
    else none)

/-- The amended C4 property stated in its own words: exactly one anomaly
per adjacent record pair whose gap strictly exceeds the fixed 1.5-hour
threshold, reporting the gap's start, end and magnitude in hours. -/
def gapAnomaliesSpec (rows : List (Int × String)) : List GapRecord :=
  (rows.zip rows.tail).filterMap (fun p =>
    if 3 / 2 < ((p.2.1 - p.1.1 : Int) : Rat) / 60 then
      some ⟨p.1.1, p.2.1, ((p.2.1 - p.1.1 : Int) : Rat) / 60, p.1.2, p.2.2⟩
    else none)

/-- The original C4 wording's nominal sampling interval: the predominant
(most frequent) inter-record delta of a timestamp series, in hours. -/
def predominantDeltaHours (ts : List Int) : Option Rat :=
  let deltas := (ts.zip ts.tail).map (fun p => p.2 - p.1)
  (deltas.foldl
      (fun best d =>
        match best with
        | none => some d
        | some b => if deltas.count b < deltas.count d then some d else some b)
      none).map
    (fun d => ((d : Int) : Rat) / 60)

/-- A per-chunk summary row as aggregated by
`dst_bulletproof_validation.py` (lines 24 to 31): chunk id plus the
chunk's first and last local timestamps, listed in ascending order of
`start_local`. -/
structure ChunkSummary where
  chunk_id : String
  start_local : Int
  end_local : Int
deriving DecidableEq, Repr

/-- Default summary used for the positional accesses of the boundary loop. -/
def noChunkSummary : ChunkSummary := ⟨"", 0, 0⟩

/-- The transition list `dst_transitions_2022_2023` of
`dst_bulletproof_validation.py` (lines 48 to 53), as naive datetimes in
minutes. -/
def dstTransitions20222023 : List Int :=
  [dtMin 2022 3 13 7 0, dtMin 2022 11 6 6 0,
   dtMin 2023 3 12 7 0, dtMin 2023 11 5 6 0]

/-- The chunk-boundary analysis of `dst_bulletproof_validation.py` (lines
57 to 87): for every consecutive pair of chunks it scans the transition
list for the first event within one hour (3600 seconds; here 60 minutes)
of the current chunk's end, breaking on a match; a pair with no match is
reported as a warning (`none` here), and the loop continues either way —
no boundary ever raises. -/
def boundaryCheck (transitions : List Int) (chunks : List ChunkSummary) :
    List (ChunkSummary × ChunkSummary × Option Int) :=
  (List.range (chunks.length - 1)).map (fun i =>
    let cur := chunks.getD i noChunkSummary
    let nxt := chunks.getD (i + 1) noChunkSummary
    (cur, nxt, transitions.find? (fun tr => (cur.end_local - tr).natAbs < 60)))

/-- Two concrete chunk summaries whose boundary (ending 2022-06-01 00:00)
is nowhere near a transition event. -/
def demoSummaries : List ChunkSummary :=
  [⟨"chunk1", dtMin 2022 5 1 0 0, dtMin 2022 6 1 0 0⟩,
   ⟨"chunk2", dtMin 2022 6 2 0 0, dtMin 2022 7 1 0 0⟩]

/-- The single boundary entry the cross-check produces for
`demoSummaries`: a reported mismatch (`none`), since no 2022/2023
transition lies within one hour of 2022-06-01 00:00. -/
def demoBoundaryEntry : ChunkSummary × ChunkSummary × Option Int :=
  (⟨"chunk1", dtMin 2022 5 1 0 0, dtMin 2022 6 1 0 0⟩,
   ⟨"chunk2", dtMin 2022 6 2 0 0, dtMin 2022 7 1 0 0⟩, none)

/-- The pandas elementwise `ne` comparison used by
`scripts/quality.py`: a missing value (`None`/`NaN`) compares unequal to
everything, including another missing value. -/
def seriesNe {σ : Type} [DecidableEq σ] : Option σ → Option σ → Bool
  | some x, some y => decide (x ≠ y)
  | _, _ => true

/-- The `chunk_boundaries` helper of `scripts/quality.py` (lines 66 to
75).  All-null signatures short-circuit to the empty list; otherwise the
signature series is compared elementwise against its one-step shift (the
shift's leading slot holds a missing value, and `List.zipWith` drops the
shifted-out final element exactly as `Series.shift` does), the positions
of the changes are collected, the first collected position is dropped,
and the timestamps at the remaining positions are returned. -/
def chunk_boundaries {τ σ : Type} [DecidableEq σ] [Inhabited τ]
    (timestamps : List τ) (signatures : List (Option σ)) : List τ :=
  if signatures.all Option.isNone then []
  else
    let changes := List.zipWith seriesNe signatures (none :: signatures)
    let indices := ((List.range signatures.length).zip changes).filterMap
      (fun p => if p.2 then some p.1 else none)
    match indices with
    | [] => []
    | _ :: rest => rest.map (fun i => timestamps.getD i default)

/-- The C9 claim's description of the boundaries, walking the series from
its second position with the previous signature in hand and emitting the
timestamp wherever the signature differs from its immediate predecessor. -/
def boundarySpecAux {τ σ : Type} [DecidableEq σ] :
    List τ → List (Option σ) → Option σ → List τ
  | t :: ts, s :: sigs, prev =>
    (if s ≠ prev then [t] else []) ++ boundarySpecAux ts sigs s
  | _, _, _ => []

/-- The C9 claim's description of `chunk_boundaries`: the timestamps at
every position (other than the very first) whose signature differs from
the immediately preceding one. -/
def boundarySpec {τ σ : Type} [DecidableEq σ]
    (timestamps : List τ) (signatures : List (Option σ)) : List τ :=
  match timestamps, signatures with
  | _ :: ts, s :: sigs => boundarySpecAux ts sigs s
  | _, _ => []

/-- Number of maximal runs of equal consecutive values after a given
predecessor value. -/
def countRunsAux {σ : Type} [DecidableEq σ] : Option σ → List (Option σ) → Nat
  | _, [] => 0
  | prev, s :: rest => (if s ≠ prev then 1 else 0) + countRunsAux s rest

/-- Number of maximal runs of equal consecutive values of a series. -/
def countRuns {σ : Type} [DecidableEq σ] : List (Option σ) → Nat
  | [] => 0
  | s :: rest => 1 + countRunsAux s rest

/-- Python's `str.strip()` over the character list: leading and trailing
whitespace removed.  (Defined over `List Char` rather than through the
byte-position string primitives so that concrete runs reduce inside the
kernel.) -/
def strTrim (s : String) : String :=
  ⟨((s.data.dropWhile Char.isWhitespace).reverse.dropWhile Char.isWhitespace).reverse⟩

/-- Python's `str.upper()` over the character list. -/
def strToUpper (s : String) : String :=
  ⟨s.data.map Char.toUpper⟩

/-- Value of a nonempty digit string. -/
def digitsToNat (ds : List Char) : Nat :=
  ds.foldl (fun acc c => 10 * acc + (c.toNat - Char.toNat '0')) 0

/-- Optional leading sign of a numeric literal. -/
def parseSign : List Char → Int × List Char
  | '+' :: rest => (1, rest)
  | '-' :: rest => (-1, rest)
  | cs => (1, cs)

/-- Python's `int(str)` on an already-stripped string: an optional sign
followed by at least one digit.  (Digit-group underscores, accepted by
Python since 3.6, do not occur in the scanned data and are not
modelled.) -/
def pythonInt (s : String) : Option Int :=
  let (sign, cs) := parseSign s.data
  if cs ≠ [] ∧ cs.all Char.isDigit then some (sign * (digitsToNat cs : Int))
  else none

/-- Exact value of a float literal `sign digits [. digits] [(e|E) sign
digits]`.  The exponent is applied after shifting the fractional digits
into the mantissa. -/
def ratVal (sign : Int) (ip fp : List Char) (e : Int) : Rat :=
  ((sign * (digitsToNat (ip ++ fp) : Int) : Int) : Rat) *
    (10 : Rat) ^ (e - (fp.length : Int))

/-- Python's `float(str)` on an already-stripped string, modelled with
exact rational arithmetic (the scanned record numbers are far below the
range where binary-float rounding could differ; special values such as
`inf` parse to `none` here and lead to the same `None` verdict in
`parse_record_value` as Python's non-integral floats). -/
def parseFloatLit (s : String) : Option Rat :=
  let (sign, cs0) := parseSign s.data
  let (ip, cs1) := cs0.span Char.isDigit
  let (fp, cs2) :=
    match cs1 with
    | '.' :: r => r.span Char.isDigit
    | _ => (([] : List Char), cs1)
  if ip = [] ∧ fp = [] then none
  else
    match cs2 with
    | [] => some (ratVal sign ip fp 0)
    | e :: r =>
      if e = 'e' ∨ e = 'E' then
        let (esign, r1) := parseSign r
        let (ed, r2) := r1.span Char.isDigit
        if ed ≠ [] ∧ r2 = [] then some (ratVal sign ip fp (esign * (digitsToNat ed : Int)))
        else none
      else none

/-- `parse_record_value` from `scripts/record_number_evaluator.py` (lines
72 to 87): strip, reject empty and the textual null/infinity tokens, send
strings containing `.`/`e`/`E` through float parsing (accepting only
integral values), and parse everything else as an integer. -/
def parse_record_value (value : String) : Option Int :=
  let cleaned := strTrim value
  if cleaned = "" then none
  else if strToUpper cleaned ∈ ["NAN", "NULL", "NA", "INF", "-INF"] then none
  else if cleaned.data.any (fun c => c = '.' ∨ c = 'e' ∨ c = 'E') then
    match parseFloatLit cleaned with
    | some q => if q.den = 1 then some q.num else none
    | none => none
  else pythonInt cleaned

/-- `RowSnapshot` from `record_number_evaluator.py`. -/
structure RowSnapshot where
  line_number : Nat
  record : Option Int
  timestamp : Option String
  fields : List String
deriving DecidableEq, Repr

/-- `InvalidRecord` from `record_number_evaluator.py`. -/
structure InvalidRecord where
  line_number : Nat
  raw_value : String
  reason : String
  fields : List String
deriving DecidableEq, Repr

/-- `Anomaly` from `record_number_evaluator.py` (the constant `file_path`
field, irrelevant to the scan of a single file, is omitted). -/
structure RowAnomaly where
  difference : Int
  row_above : RowSnapshot
  row_below : RowSnapshot
deriving DecidableEq, Repr

/-- The aggregate result of `analyze_file` (its error list concerns only
I/O and header handling, which sit outside the row loop embedded here). -/
structure FileStats where
  total_rows : Nat
  valid_record_rows : Nat
  invalid_records : List InvalidRecord
  anomalies : List RowAnomaly
deriving DecidableEq, Repr

/-- The per-row field stripping of `analyze_file`. -/
def cleanRow (row : List String) : List String := row.map strTrim

/-- The `raw_record` value of `analyze_file`: the stripped record column,
or the `<missing>` marker when the row is too short. -/
def rowRawRecord (recIdx : Nat) (cleaned : List String) : String :=
  if recIdx < cleaned.length then cleaned.getD recIdx "" else "<missing>"

/-- The parsed record value of a row: parse the record column when
present, `none` when the row is too short. -/
def rowRecordValue (recIdx : Nat) (cleaned : List String) : Option Int :=
  if recIdx < cleaned.length then parse_record_value (cleaned.getD recIdx "")
  else none

/-- The timestamp value of a row: the timestamp column when a timestamp
column exists, is in range and is nonempty. -/
def rowTimestampValue (tsIdx : Option Nat) (cleaned : List String) : Option String :=
  match tsIdx with
  | some ti =>
    if ti < cleaned.length then
      if cleaned.getD ti "" = "" then none else some (cleaned.getD ti "")
    else none
  | none => none

/-- The `RowSnapshot` built for one non-empty row of `analyze_file`. -/
def mkSnapshot (recIdx : Nat) (tsIdx : Option Nat) (lineNumber : Nat)
    (cleaned : List String) : RowSnapshot :=
  ⟨lineNumber, rowRecordValue recIdx cleaned, rowTimestampValue tsIdx cleaned, cleaned⟩

/-- The row loop of `analyze_file` from `record_number_evaluator.py`
(lines 119 to 161): rows whose stripped fields are all empty are skipped
(the `continue` does not touch `prev_snapshot`, though the row counter
still advances); a row whose record value fails to parse is recorded as
invalid and resets `prev_snapshot` to `None`; a valid row is compared
against a valid predecessor and any difference other than `1` becomes an
anomaly, after which the row becomes the new predecessor. -/
def analyzeLoop (recIdx : Nat) (tsIdx : Option Nat) (headerCount : Nat) :
    List (List String) → Nat → Option RowSnapshot → FileStats
  | [], _, _ => ⟨0, 0, [], []⟩
  | row :: rest, dataIdx, prev =>
    let cleaned := cleanRow row
    if cleaned.all (fun f => f = "") then
      analyzeLoop recIdx tsIdx headerCount rest (dataIdx + 1) prev
    else
      let lineNumber := headerCount + dataIdx
      let snapshot := mkSnapshot recIdx tsIdx lineNumber cleaned
      match snapshot.record with
      | none =>
        let raw := rowRawRecord recIdx cleaned
        let reason := if raw = "<missing>" then "record column missing"
          else "unable to parse record value"
        let s := analyzeLoop recIdx tsIdx headerCount rest (dataIdx + 1) none
        ⟨s.total_rows + 1, s.valid_record_rows,
         ⟨lineNumber, raw, reason, cleaned⟩ :: s.invalid_records, s.anomalies⟩
      | some rv =>
        let newAnoms : List RowAnomaly :=
          match prev with
          | some ps =>
            match ps.record with
            | some pr => if rv - pr ≠ 1 then [⟨rv - pr, ps, snapshot⟩] else []
            | none => []
          | none => []
        let s := analyzeLoop recIdx tsIdx headerCount rest (dataIdx + 1) (some snapshot)
        ⟨s.total_rows + 1, s.valid_record_rows + 1, s.invalid_records,
         newAnoms ++ s.anomalies⟩

/-- The row-scanning part of `analyze_file`: the loop starts at data index
1 (`enumerate(reader, start=1)`) with no previous snapshot. -/
def analyze_file (recIdx : Nat) (tsIdx : Option Nat) (headerCount : Nat)
    (rows : List (List String)) : FileStats :=
  analyzeLoop recIdx tsIdx headerCount rows 1 none

/-- The C10 claim's reading sequence: the non-empty rows of the file (all
fields stripped), each paired with its line number, in reading order. -/
def nonEmptyRows (headerCount : Nat) :
    List (List String) → Nat → List (Nat × List String)
  | [], _ => []
  | row :: rest, dataIdx =>
    let cleaned := cleanRow row
    if cleaned.all (fun f => f = "") then
      nonEmptyRows headerCount rest (dataIdx + 1)
    else
      (headerCount + dataIdx, cleaned) :: nonEmptyRows headerCount rest (dataIdx + 1)

/-- The C10 claim's anomaly condition for one pair of consecutively read
non-empty rows: an anomaly exactly when both record values parse as
integers and their difference is not `1`. -/
def pairAnomaly (recIdx : Nat) (tsIdx : Option Nat) (a b : Nat × List String) :
    Option RowAnomaly :=
  let sa := mkSnapshot recIdx tsIdx a.1 a.2
  let sb := mkSnapshot recIdx tsIdx b.1 b.2
  match sa.record, sb.record with
  | some x, some y => if y - x ≠ 1 then some ⟨y - x, sa, sb⟩ else none
  | _, _ => none

/-- The C10 claim's description of the recorded anomalies: the anomaly
condition applied to every pair of consecutively read non-empty rows. -/
def rowAnomalySpec (recIdx : Nat) (tsIdx : Option Nat) (headerCount : Nat)
    (rows : List (List String)) : List RowAnomaly :=
  let nrows := nonEmptyRows headerCount rows 1
  (nrows.zip nrows.tail).filterMap (fun p => pairAnomaly recIdx tsIdx p.1 p.2)

/-- Intermediate form of the anomaly scan: the loop's anomaly output as a
walk over the non-empty rows, carrying the previous valid snapshot. -/
def pairChain (recIdx : Nat) (tsIdx : Option Nat) :
    Option RowSnapshot → List (Nat × List String) → List RowAnomaly
  | _, [] => []
  | prev, p :: rest =>
    let s := mkSnapshot recIdx tsIdx p.1 p.2
    match s.record with
    | none => pairChain recIdx tsIdx none rest
    | some rv =>
      (match prev with
       | some ps =>
         match ps.record with
         | some pr => if rv - pr ≠ 1 then [⟨rv - pr, ps, s⟩] else []
         | none => []
       | none => []) ++ pairChain recIdx tsIdx (some s) rest

/-- Prepend an optional element to a list. -/
def optCons {α : Type} : Option α → List α → List α
  | none, l => l
  | some a, l => a :: l

/-! ### Theorems -/

/-- C1.  Offset freezing: every corrected record of a projected chunk
carries exactly the offset resolved at the chunk's minimum local
timestamp, and that offset depends on nothing but the chunk's start (two
chunks with equal start local timestamps receive equal offsets, whatever
their later records do); it is never re-derived from any later timestamp
in the chunk. -/
theorem offset_freezing {π : Type} (baseline : Int) (table : List TransitionEvent)
    (c : Chunk π) :
    ∀ r ∈ projectChunk baseline table c,
      r.utc_offset_hours = offsetAt baseline table (chunkStartLocal c) ∧
      ∀ (c' : Chunk π), chunkStartLocal c' = chunkStartLocal c →
        ∀ r' ∈ projectChunk baseline table c',
          r'.utc_offset_hours = r.utc_offset_hours := by
  intro r hr
  simp only [projectChunk, List.mem_map] at hr
  obtain ⟨a, _, rfl⟩ := hr
  refine ⟨rfl, ?_⟩
  intro c' hstart r' hr'
  simp only [projectChunk, List.mem_map] at hr'
  obtain ⟨a', _, rfl⟩ := hr'
  simp [hstart]

/-- Witness for C1: the demonstration chunk starts 2022-02-01 (EST), so the
frozen offset is `-5`; the July record keeps that `-5` even though the
offset in force at its own timestamp is `-4` (EDT) — the chunk's local
span crosses the 2022-03-13 transition and the offset is not re-derived. -/
theorem offset_freezing_witness :
    demoRecJuly.utc_offset_hours = offsetAt (-5) easternTable (chunkStartLocal demoChunk) ∧
    offsetAt (-5) easternTable (chunkStartLocal demoChunk) = -5 ∧
    offsetAt (-5) easternTable (dtMin 2022 7 1 12 0) = -4 :=
  ⟨(offset_freezing (-5) easternTable demoChunk demoRecJuly (by decide)).1,
   by decide, by decide⟩

/-- C2.  For every record of a projected chunk,
`utc_timestamp = local_timestamp - utc_offset_hours` (in minutes, the
subtrahend is `60 * utc_offset_hours`, so subtracting a negative offset
adds hours), and `utc_offset_hours` is identical across every record of
the chunk. -/
theorem utc_projection_relation {π : Type} (baseline : Int)
    (table : List TransitionEvent) (c : Chunk π) :
    ∀ r ∈ projectChunk baseline table c,
      r.utc_timestamp = r.local_timestamp - 60 * r.utc_offset_hours ∧
      ∀ r' ∈ projectChunk baseline table c,
        r'.utc_offset_hours = r.utc_offset_hours := by
  intro r hr
  simp only [projectChunk, List.mem_map] at hr
  obtain ⟨a, _, rfl⟩ := hr
  refine ⟨rfl, ?_⟩
  intro r' hr'
  simp only [projectChunk, List.mem_map] at hr'
  obtain ⟨a', _, rfl⟩ := hr'
  rfl

/-- Witness for C2, evaluated on the demonstration chunk: the July record
projects to its local timestamp minus `60 * (-5)` minutes (that is, five
hours are added), and both records carry the same offset. -/
theorem utc_projection_relation_witness :
    demoRecJuly.utc_timestamp = demoRecJuly.local_timestamp - 60 * demoRecJuly.utc_offset_hours ∧
    demoRecJuly.utc_timestamp = dtMin 2022 7 1 17 0 :=
  ⟨(utc_projection_relation (-5) easternTable demoChunk demoRecJuly (by decide)).1,
   by decide⟩

/-- C5.  Monotonicity preservation: when a chunk's local timestamps are
non-decreasing, the projected UTC timestamps are non-decreasing as well,
because projection shifts every record by the same constant offset. -/
theorem projection_monotone {π : Type} (baseline : Int)
    (table : List TransitionEvent) (c : Chunk π)
    (h : List.Chain' (· ≤ ·) (c.records.map (fun r => r.local_timestamp))) :
    List.Chain' (· ≤ ·) ((projectChunk baseline table c).map (fun r => r.utc_timestamp)) := by
  rw [List.chain'_map] at h
  simp only [projectChunk, List.map_map]
  rw [List.chain'_map]
  exact h.imp (fun a b hab =>
    sub_le_sub_right hab (60 * offsetAt baseline table (chunkStartLocal c)))

/-- Witness for C5: the demonstration chunk's local timestamps ascend, and
so do its projected UTC timestamps. -/
theorem projection_monotone_witness :
    List.Chain' (· ≤ ·) ((projectChunk (-5) easternTable demoChunk).map (fun r => r.utc_timestamp)) :=
  projection_monotone (-5) easternTable demoChunk (by
    show List.Chain' (· ≤ ·) [dtMin 2022 2 1 0 0, dtMin 2022 7 1 12 0]
    exact List.chain'_cons.mpr ⟨by decide, List.chain'_singleton _⟩)

/-- C7.  Determinism and idempotence: projection and the full pipeline are
pure functions of their inputs — equal chunks project to equal
`CorrectedRecord` sequences, and equal raw inputs produce identical
`CorrectedRecord` and anomaly outputs; `runPipeline` takes no clock
argument, so no dependency on the current wall-clock time exists. -/
theorem pipeline_deterministic {π : Type} [DecidableEq π] (baseline : Int)
    (table : List TransitionEvent) (c₁ c₂ : Chunk π)
    (input₁ input₂ : List (RawRecord π))
    (hc : c₁ = c₂) (hi : input₁ = input₂) :
    projectChunk baseline table c₁ = projectChunk baseline table c₂ ∧
    runPipeline baseline table input₁ = runPipeline baseline table input₂ := by
  subst hc; subst hi; exact ⟨rfl, rfl⟩

/-- Witness for C7: two runs of projection on the demonstration chunk and
two runs of the full pipeline on its record list coincide. -/
theorem pipeline_deterministic_witness :
    projectChunk (-5) easternTable demoChunk = projectChunk (-5) easternTable demoChunk ∧
    runPipeline (-5) easternTable demoChunk.records = runPipeline (-5) easternTable demoChunk.records :=
  pipeline_deterministic (-5) easternTable demoChunk demoChunk
    demoChunk.records demoChunk.records rfl rfl

/-- C8.  Duplicate-provenance collapse: two raw records with identical
local timestamp and payload whose provenance sets are related by set
inclusion collapse into exactly one logical record whose provenance is the
union of the two sets. -/
theorem dedup_collapse {π : Type} [DecidableEq π] (t : Int) (p : π)
    (s₁ s₂ : Finset String) (h : s₁ ⊆ s₂ ∨ s₂ ⊆ s₁) :
    dedupRecords [RawRecord.mk t s₁ p, RawRecord.mk t s₂ p] =
      [RawRecord.mk t (s₁ ∪ s₂) p] := by
  have h1 : dedupRecords [RawRecord.mk t s₁ p, RawRecord.mk t s₂ p] =
      collapseInto [RawRecord.mk t s₁ p] (RawRecord.mk t s₂ p) := rfl
  rw [h1, collapseInto, if_pos ⟨rfl, rfl, h⟩]

/-- Witness for C8: provenance `{fileA}` and `{fileA, fileB}` collapse to
one record with provenance `{fileA, fileB}` (the union). -/
theorem dedup_collapse_witness :
    dedupRecords [RawRecord.mk 0 {"fileA"} (), RawRecord.mk 0 {"fileA", "fileB"} ()] =
      [RawRecord.mk 0 ({"fileA"} ∪ {"fileA", "fileB"}) ()] :=
  dedup_collapse 0 () {"fileA"} {"fileA", "fileB"} (Or.inl (by decide))

/-- Iterating `f` over positions `i` and `i + 1` of a list (the scripts'
`for i in range(len(rows) - 1)` idiom) visits exactly the adjacent pairs
of the list. -/
theorem range_filterMap_pairs {α β : Type} (d : α) (f : α → α → Option β) :
    ∀ l : List α,
      (List.range (l.length - 1)).filterMap
          (fun i => f (l.getD i d) (l.getD (i + 1) d)) =
        (l.zip l.tail).filterMap (fun p => f p.1 p.2)
  | [] => by simp
  | [a] => by simp
  | a :: b :: t => by
    have ih := range_filterMap_pairs d f (b :: t)
    simp only [List.length_cons, Nat.add_sub_cancel] at ih ⊢
    rw [List.range_succ_eq_map, List.filterMap_cons, List.filterMap_map]
    have hcomp : ((fun i => f ((a :: b :: t).getD i d) ((a :: b :: t).getD (i + 1) d)) ∘ Nat.succ)
        = fun i => f ((b :: t).getD i d) ((b :: t).getD (i + 1) d) := by
      funext i
      simp [Function.comp, List.getD_cons_succ]
    rw [hcomp, ih]
    cases hf : f a b <;>
      simp [List.getD_cons_zero, List.getD_cons_succ, List.filterMap_cons, hf]

/-- C3 evaluation.  The in-repo timezone-determination loop compares at
calendar-date granularity (`dt.date() >= transition_dt.date()`), so a
record at local 2022-03-13 01:59 — strictly before the 02:00 transition
instant — already receives the post-transition offset (EDT, `-4`); the
half-open instant-granularity resolution of spec 4.2 yields the
pre-transition offset (EST, `-5`) there.  The same divergence appears at
the script's own edge case 2024-03-10 01:59, for which the script's
in-file expected value is EST; the script itself prints an
algorithm-error diagnosis for exactly this behaviour. -/
theorem boundary_semantics_date_granularity_bug :
    simulatedOffset dstTransitionsByDate (daysFromCivil 2022 3 13) = -4 ∧
    offsetAt (-5) easternTable (dtMin 2022 3 13 1 59) = -5 ∧
    simulatedOffset dstTransitionsByDate (daysFromCivil 2024 3 10) = -4 ∧
    offsetAt (-5) easternTable (dtMin 2024 3 10 1 59) = -5 := by
  decide

/-- C4 counterexample.  The claim ties the detection threshold to 1.5
times the chunk's nominal sampling interval: under 30-minute sampling
(predominant delta one-half hour) a 60-minute gap exceeds
`1.5 * 0.5 = 0.75` hours and would have to be flagged, yet the scan
reports nothing, because its threshold is the fixed value 1.5 hours. -/
theorem missing_hours_fixed_threshold_counterexample :
    missingHoursScan [(0, "a"), (30, "a"), (60, "a"), (120, "a"), (150, "a")] = [] ∧
    predominantDeltaHours [0, 30, 60, 120, 150] = some (1 / 2) ∧
    3 / 2 * (1 / 2 : Rat) < ((120 - 60 : Int) : Rat) / 60 := by
  refine ⟨?_, ?_, by norm_num⟩
  · norm_num [missingHoursScan, show List.range 4 = [0, 1, 2, 3] from rfl,
      List.filterMap, defaultRow]
  · norm_num [predominantDeltaHours, List.foldl, List.count]

/-- C4 amended.  The missing-hours scan reports exactly one anomaly per
maximal (adjacent-pair) gap, carrying the gap's start and end timestamps
and its magnitude in hours, and it flags a gap exactly when the gap
strictly exceeds the fixed 1.5-hour tolerance — independent of the
chunk's nominal sampling interval.  In particular a 4-hour gap inside a
30-minute-sampled series from local 10:00 to 14:00 yields the single
anomaly of magnitude 4 hours rather than four 30-minute ones. -/
theorem missing_hours_amended :
    (∀ rows : List (Int × String), missingHoursScan rows = gapAnomaliesSpec rows) ∧
    missingHoursScan
        [(510, "a"), (540, "a"), (570, "a"), (600, "a"),
         (840, "a"), (870, "a"), (900, "a")] =
      [⟨600, 840, 4, "a", "a"⟩] := by
  constructor
  · intro rows
    exact range_filterMap_pairs defaultRow
      (fun cur nxt =>
        if 3 / 2 < ((nxt.1 - cur.1 : Int) : Rat) / 60 then
          some (GapRecord.mk cur.1 nxt.1 (((nxt.1 - cur.1 : Int) : Rat) / 60) cur.2 nxt.2)
        else none)
      rows
  · norm_num [missingHoursScan, show List.range 6 = [0, 1, 2, 3, 4, 5] from rfl,
      List.filterMap, defaultRow]

/-- C6.  The boundary cross-check produces exactly one result per
consecutive chunk pair (so a mismatch never aborts the scan of the
remaining boundaries — the function is total and the mismatch is a
reported value, not an error), and a boundary is reported as a mismatch
(`none`) precisely when no transition event lies within one hour of it. -/
theorem boundary_crosscheck (transitions : List Int) (chunks : List ChunkSummary) :
    (boundaryCheck transitions chunks).length = chunks.length - 1 ∧
    ∀ e ∈ boundaryCheck transitions chunks,
      (e.2.2 = none ↔ ∀ tr ∈ transitions, ¬ (e.1.end_local - tr).natAbs < 60) := by
  constructor
  · simp [boundaryCheck]
  · intro e he
    simp only [boundaryCheck, List.mem_map, List.mem_range] at he
    obtain ⟨i, _, rfl⟩ := he
    simp [List.find?_eq_none]

/-- Witness for C6: on the two demonstration chunks the cross-check
produces exactly one entry, and that entry is a mismatch precisely
because no transition is within an hour of the boundary — which indeed
none is. -/
theorem boundary_crosscheck_witness :
    (boundaryCheck dstTransitions20222023 demoSummaries).length = demoSummaries.length - 1 ∧
    (demoBoundaryEntry.2.2 = none ↔
      ∀ tr ∈ dstTransitions20222023, ¬ (demoBoundaryEntry.1.end_local - tr).natAbs < 60) ∧
    demoBoundaryEntry.2.2 = none :=
  ⟨(boundary_crosscheck dstTransitions20222023 demoSummaries).1,
   (boundary_crosscheck dstTransitions20222023 demoSummaries).2 demoBoundaryEntry (by decide),
   by decide⟩

/-- Key step for C9: after the always-marked first position has been
dropped, the index/change bookkeeping of `chunk_boundaries` emits exactly
the claim's boundary walk, provided the predecessor signature is present
(non-null) and every remaining signature is present. -/
theorem chunk_boundaries_key {τ σ : Type} [DecidableEq σ] [Inhabited τ] (tsFull : List τ) :
    ∀ (sigs : List (Option σ)) (ts : List τ) (prev : σ) (k : Nat),
      (∀ s ∈ sigs, s.isSome) →
      sigs.length = ts.length →
      (∀ j, j < sigs.length → tsFull.getD (k + j) default = ts.getD j default) →
      (((List.range' k sigs.length).zip
            (List.zipWith seriesNe sigs (some prev :: sigs))).filterMap
          (fun p => if p.2 then some p.1 else none)).map
        (fun i => tsFull.getD i default) = boundarySpecAux ts sigs (some prev) := by
  intro sigs
  induction sigs with
  | nil =>
    intro ts prev k _ _ _
    cases ts <;> simp [boundarySpecAux]
  | cons s sigs ih =>
    intro ts prev k hall hlen hts
    obtain ⟨x, rfl⟩ : ∃ x, s = some x :=
      Option.isSome_iff_exists.mp (hall s (List.mem_cons_self s sigs))
    cases ts with
    | nil => simp at hlen
    | cons t ts' =>
      have hall' : ∀ u ∈ sigs, u.isSome := fun u hu => hall u (List.mem_cons_of_mem _ hu)
      have hlen' : sigs.length = ts'.length := by simpa using hlen
      have hts' : ∀ j, j < sigs.length → tsFull.getD (k + 1 + j) default = ts'.getD j default := by
        intro j hj
        have := hts (j + 1) (by simpa using Nat.succ_lt_succ hj)
        simpa [Nat.add_assoc, Nat.add_comm 1 j] using this
      have ht0 : tsFull.getD k default = t := by
        have := hts 0 (by simp)
        simpa using this
      have ihx := ih ts' x (k + 1) hall' hlen' hts'
      simp only [List.length_cons, List.range'_succ, List.zipWith_cons_cons,
        List.zip_cons_cons, List.filterMap_cons, boundarySpecAux]
      by_cases hxp : x = prev
      · subst hxp
        simpa [seriesNe] using ihx
      · simp [seriesNe, hxp]
        exact ⟨by simpa using ht0, by simpa using ihx⟩

/-- Length of the claim-side boundary walk: one emitted timestamp per run
change, so the walk's length is the number of runs after the given
predecessor. -/
theorem boundarySpecAux_length {τ σ : Type} [DecidableEq σ] :
    ∀ (sigs : List (Option σ)) (ts : List τ) (prev : Option σ),
      sigs.length = ts.length →
      (boundarySpecAux ts sigs prev).length = countRunsAux prev sigs := by
  intro sigs
  induction sigs with
  | nil =>
    intro ts prev _
    cases ts <;> simp [boundarySpecAux, countRunsAux]
  | cons s sigs ih =>
    intro ts prev hlen
    cases ts with
    | nil => simp at hlen
    | cons t ts' =>
      have hlen' : sigs.length = ts'.length := by simpa using hlen
      by_cases hsp : s = prev
      · subst hsp
        simp [boundarySpecAux, countRunsAux, ih ts' s hlen']
      · simp [boundarySpecAux, countRunsAux, hsp, ih ts' s hlen', Nat.add_comm]

/-- C9.  For equal-length series with no null signature,
`chunk_boundaries` returns exactly the timestamps at the positions whose
signature differs from the immediately preceding one (the very first
position excluded), hence one fewer timestamp than the series has maximal
runs of equal consecutive signatures; and an all-null signature series
yields the empty list. -/
theorem chunk_boundaries_characterization {τ σ : Type} [DecidableEq σ] [Inhabited τ]
    (timestamps : List τ) (signatures : List (Option σ)) :
    (timestamps.length = signatures.length →
      (∀ s ∈ signatures, s.isSome) →
      chunk_boundaries timestamps signatures = boundarySpec timestamps signatures ∧
      (signatures ≠ [] →
        (chunk_boundaries timestamps signatures).length + 1 = countRuns signatures)) ∧
    ((∀ s ∈ signatures, s = none) → chunk_boundaries timestamps signatures = []) := by
  constructor
  · intro hlen hall
    cases signatures with
    | nil =>
      refine ⟨?_, fun h => absurd rfl h⟩
      cases timestamps <;> simp [chunk_boundaries, boundarySpec]
    | cons s sigs' =>
      obtain ⟨x, rfl⟩ : ∃ x, s = some x :=
        Option.isSome_iff_exists.mp (hall s (List.mem_cons_self s sigs'))
      cases timestamps with
      | nil => simp at hlen
      | cons t ts' =>
        have hall' : ∀ u ∈ sigs', u.isSome :=
          fun u hu => hall u (List.mem_cons_of_mem _ hu)
        have hlen' : sigs'.length = ts'.length := by simpa using hlen.symm
        have hkey := chunk_boundaries_key (t :: ts') sigs' ts' x 1 hall' hlen'
          (fun j hj => by simp [Nat.add_comm 1 j])
        have hmain : chunk_boundaries (t :: ts') (some x :: sigs') =
            boundarySpecAux ts' sigs' (some x) := by
          rw [← hkey]
          simp only [chunk_boundaries, List.length_cons, List.range_eq_range',
            List.range'_succ, List.zipWith_cons_cons, List.zip_cons_cons,
            List.filterMap_cons]
          simp [seriesNe]
        refine ⟨by rw [hmain]; rfl, fun _ => ?_⟩
        rw [hmain, boundarySpecAux_length sigs' ts' (some x) hlen']
        simp [countRuns, Nat.add_comm]
  · intro hnull
    have hT : signatures.all Option.isNone = true := by
      simp only [List.all_eq_true]
      intro u hu
      simp [hnull u hu]
    simp [chunk_boundaries, hT]

/-- Witness for C9 on a five-point series with runs `aa`, `bb`, `c`: the
boundaries are the claim's boundary walk (namely `[30, 50]`), their count
plus one equals the three runs, and an all-null series yields nothing. -/
theorem chunk_boundaries_witness :
    chunk_boundaries ([10, 20, 30, 40, 50] : List Int)
        [some "a", some "a", some "b", some "b", some "c"] =
      boundarySpec ([10, 20, 30, 40, 50] : List Int)
        [some "a", some "a", some "b", some "b", some "c"] ∧
    (chunk_boundaries ([10, 20, 30, 40, 50] : List Int)
        [some "a", some "a", some "b", some "b", some "c"]).length + 1 =
      countRuns [some "a", some "a", some "b", some "b", some "c"] ∧
    chunk_boundaries ([10, 20, 30] : List Int)
        ([none, none, none] : List (Option String)) = [] :=
  ⟨((chunk_boundaries_characterization ([10, 20, 30, 40, 50] : List Int)
      [some "a", some "a", some "b", some "b", some "c"]).1 (by decide) (by decide)).1,
   ((chunk_boundaries_characterization ([10, 20, 30, 40, 50] : List Int)
      [some "a", some "a", some "b", some "b", some "c"]).1 (by decide) (by decide)).2
     (by decide),
   (chunk_boundaries_characterization ([10, 20, 30] : List Int)
      ([none, none, none] : List (Option String))).2 (by decide)⟩

/-- The loop's anomaly output is the chain walk over the non-empty rows:
empty rows are dropped without touching the carried snapshot, invalid
rows reset it, valid rows advance it. -/
theorem analyzeLoop_anomalies (recIdx : Nat) (tsIdx : Option Nat) (headerCount : Nat) :
    ∀ (rows : List (List String)) (dataIdx : Nat) (prev : Option RowSnapshot),
      (analyzeLoop recIdx tsIdx headerCount rows dataIdx prev).anomalies =
        pairChain recIdx tsIdx prev (nonEmptyRows headerCount rows dataIdx) := by
  intro rows
  induction rows with
  | nil => intro dataIdx prev; rfl
  | cons row rest ih =>
    intro dataIdx prev
    by_cases hemp : (cleanRow row).all (fun f => f = "")
    · simp only [analyzeLoop, nonEmptyRows, hemp, if_true]
      exact ih (dataIdx + 1) prev
    · simp only [analyzeLoop, nonEmptyRows, hemp, if_false]
      cases hrec : (mkSnapshot recIdx tsIdx (headerCount + dataIdx) (cleanRow row)).record with
      | none => simp [pairChain, hrec, ih]
      | some rv => simp [pairChain, hrec, ih]

/-- A row whose record value does not parse contributes no pair anomaly on
either side, so it disappears from the adjacent-pair scan. -/
theorem pair_scan_cons_invalid (recIdx : Nat) (tsIdx : Option Nat)
    (q : Nat × List String)
    (hq : (mkSnapshot recIdx tsIdx q.1 q.2).record = none)
    (rest : List (Nat × List String)) :
    ((q :: rest).zip (q :: rest).tail).filterMap
        (fun r => pairAnomaly recIdx tsIdx r.1 r.2) =
      (rest.zip rest.tail).filterMap (fun r => pairAnomaly recIdx tsIdx r.1 r.2) := by
  cases rest with
  | nil => rfl
  | cons r rs =>
    simp only [List.tail_cons, List.zip_cons_cons, List.filterMap_cons]
    have : pairAnomaly recIdx tsIdx q r = none := by
      simp [pairAnomaly, hq]
    simp [this]

/-- The chain walk carrying a valid snapshot (or nothing) equals the
adjacent-pair scan of the walked rows, with the carried row virtually
prepended. -/
theorem pairChain_eq_pair_scan (recIdx : Nat) (tsIdx : Option Nat) :
    ∀ (l : List (Nat × List String)) (p : Option (Nat × List String)),
      (∀ q ∈ p, (mkSnapshot recIdx tsIdx q.1 q.2).record.isSome) →
      pairChain recIdx tsIdx
          (p.map (fun q => mkSnapshot recIdx tsIdx q.1 q.2)) l =
        ((optCons p l).zip (optCons p l).tail).filterMap
          (fun r => pairAnomaly recIdx tsIdx r.1 r.2) := by
  intro l
  induction l with
  | nil =>
    intro p hp
    cases p <;> simp [pairChain, optCons]
  | cons q rest ih =>
    intro p hp
    cases hq : (mkSnapshot recIdx tsIdx q.1 q.2).record with
    | none =>
      have hchain : pairChain recIdx tsIdx
          (p.map (fun u => mkSnapshot recIdx tsIdx u.1 u.2)) (q :: rest) =
          pairChain recIdx tsIdx none rest := by
        simp [pairChain, hq]
      rw [hchain]
      have h1 : pairChain recIdx tsIdx none rest =
          (rest.zip rest.tail).filterMap (fun r => pairAnomaly recIdx tsIdx r.1 r.2) :=
        ih none (by simp)
      rw [h1]
      cases p with
      | none =>
        simp only [optCons]
        exact (pair_scan_cons_invalid recIdx tsIdx q hq rest).symm
      | some a =>
        obtain ⟨pa, hpa⟩ := Option.isSome_iff_exists.mp (hp a rfl)
        simp only [optCons, List.tail_cons, List.zip_cons_cons, List.filterMap_cons]
        have hnone : pairAnomaly recIdx tsIdx a q = none := by
          simp [pairAnomaly, hpa, hq]
        simp only [hnone]
        exact (pair_scan_cons_invalid recIdx tsIdx q hq rest).symm
    | some rv =>
      have hrest : pairChain recIdx tsIdx
          (some (mkSnapshot recIdx tsIdx q.1 q.2)) rest =
          ((q :: rest).zip (q :: rest).tail).filterMap
            (fun r => pairAnomaly recIdx tsIdx r.1 r.2) :=
        ih (some q) (by
          intro u hu
          simp only [Option.mem_def, Option.some_inj] at hu
          subst hu
          simp [hq])
      cases p with
      | none =>
        simp only [pairChain, hq, Option.map_none', optCons]
        rw [hrest]
        simp
      | some a =>
        obtain ⟨pa, hpa⟩ := Option.isSome_iff_exists.mp (hp a rfl)
        simp only [pairChain, hq, hpa, Option.map_some', optCons,
          List.tail_cons, List.zip_cons_cons, List.filterMap_cons]
        have hpq : pairAnomaly recIdx tsIdx a q =
            (if rv - pa ≠ 1 then
              some ⟨rv - pa, mkSnapshot recIdx tsIdx a.1 a.2,
                mkSnapshot recIdx tsIdx q.1 q.2⟩
            else none) := by
          simp [pairAnomaly, hpa, hq]
        rw [hpq, hrest]
        by_cases hd : rv - pa ≠ 1 <;> simp [hd]

/-- C10.  The anomalies recorded by the row loop of `analyze_file` are
exactly the pairs of consecutively read non-empty rows whose record
values both parse as integers with a difference other than `1`: a row
whose record value fails to parse resets the comparison chain (no anomaly
ever spans it), while all-empty rows are skipped without resetting the
chain. -/
theorem record_sequence_anomalies (recIdx : Nat) (tsIdx : Option Nat)
    (headerCount : Nat) (rows : List (List String)) :
    (analyze_file recIdx tsIdx headerCount rows).anomalies =
      rowAnomalySpec recIdx tsIdx headerCount rows := by
  have h1 := analyzeLoop_anomalies recIdx tsIdx headerCount rows 1 none
  have h2 : pairChain recIdx tsIdx none (nonEmptyRows headerCount rows 1) =
      ((nonEmptyRows headerCount rows 1).zip (nonEmptyRows headerCount rows 1).tail).filterMap
        (fun r => pairAnomaly recIdx tsIdx r.1 r.2) :=
    pairChain_eq_pair_scan recIdx tsIdx (nonEmptyRows headerCount rows 1) none (by simp)
  rw [analyze_file, h1, h2]
  rfl

/-! ### Concrete evaluations of the script embeddings -/

example : parse_record_value "123" = some 123 := by decide

example : parse_record_value " -7 " = some (-7) := by decide

example : parse_record_value "nan" = none := by decide

example : parse_record_value "abc" = none := by decide

example : (analyze_file 0 none 4 [[" 1 "], ["2"], ["5"], [""], ["6"]]).anomalies =
    [⟨3, ⟨6, some 2, none, ["2"]⟩, ⟨7, some 5, none, ["5"]⟩⟩] := by decide

example : (analyze_file 0 none 4 [["1"], ["x"], ["2"]]).anomalies = [] := by decide

example : (analyze_file 0 none 4 [["1"], [""], ["3"]]).anomalies =
    [⟨2, ⟨5, some 1, none, ["1"]⟩, ⟨7, some 3, none, ["3"]⟩⟩] := by decide

example :
    chunk_boundaries ([10, 20, 30, 40, 50] : List Int)
      [some "a", some "a", some "b", some "b", some "c"] = [30, 50] := by decide

example : offsetAt (-5) easternTable (dtMin 2022 3 13 2 0) = -4 := by decide

example : offsetAt (-5) easternTable (dtMin 2022 11 6 2 0) = -5 := by decide
